import Mathlib

/-!
Verification of the sprite-document (Aseprite) container decoder, frame
compositor and spritesheet boundary detector.

The definitions below are a shallow embedding of `src/aseprite_parser.py`
and of `detect_first_sprite_bounds` from `src/index.py`:

* byte buffers are `List Nat` (one entry per byte);
* Python exceptions become the `PyErr` error type of an `Except` result
  (`ValueError` raised by the parser itself, `struct.error` from
  `struct.unpack_from` on a too-short buffer, `IndexError` from direct
  indexing, `zlib.error` from `zlib.decompress`);
* `zlib.decompress` is an external library call and is modelled as an
  explicit parameter `zd : List Nat → Option (List Nat)` of the parsing
  functions, `none` meaning the library raises `zlib.error`;
* text decoding (`bytes.decode("utf-8")`) is modelled as the identity on the
  raw byte slice: names are kept as byte lists;
* Python's stable `sorted(cels, key=...)` is modelled by the stable
  `List.insertionSort`;
* rasters (PIL images) are width/height plus a pixel function.
-/

set_option maxRecDepth 1000000

/-! ## Byte-buffer primitives -/

/-- `data[i]` with Python-slice-style out-of-range tolerance (reads that the
source performs are always guarded or slice-based; the default is never
observable in the guarded paths). -/
def byteAt (d : List Nat) (i : Nat) : Nat := d.getD i 0

/-- little-endian `<H` field starting at `i`. -/
def readU16 (d : List Nat) (i : Nat) : Nat := byteAt d i + 256 * byteAt d (i + 1)

/-- little-endian `<I` field starting at `i`. -/
def readU32 (d : List Nat) (i : Nat) : Nat :=
  byteAt d i + 256 * byteAt d (i + 1) + 65536 * byteAt d (i + 2) +
    16777216 * byteAt d (i + 3)

/-- little-endian signed `<h` field starting at `i`. -/
def readS16 (d : List Nat) (i : Nat) : Int :=
  let v := readU16 d i
  if v < 32768 then (v : Int) else (v : Int) - 65536

/-- Python slice `d[a:b]` (for `0 ≤ a`, `0 ≤ b`): silently truncates at the
end of the list, and yields `[]` when `b ≤ a`. -/
def pySlice (d : List Nat) (a b : Nat) : List Nat := (d.drop a).take (b - a)

/-! ## Exceptions -/

/-- The Python exceptions the decoder can raise. `valueError` is what the
source raises itself (the spec's `FormatError`); the others escape from
library calls. -/
inductive PyErr where
  | valueError
  | structError
  | indexError
  | zlibError
deriving DecidableEq

/-- `True` on `Except.ok`, mirroring "the call returned without raising". -/
def exceptOk {ε α : Type} : Except ε α → Bool
  | .ok _ => true
  | .error _ => false

instance {ε α : Type} [DecidableEq ε] [DecidableEq α] : DecidableEq (Except ε α)
  | .ok a, .ok b =>
    if h : a = b then .isTrue (by rw [h])
    else .isFalse (by intro hh; cases hh; exact h rfl)
  | .ok _, .error _ => .isFalse (by intro hh; cases hh)
  | .error _, .ok _ => .isFalse (by intro hh; cases hh)
  | .error e, .error f =>
    if h : e = f then .isTrue (by rw [h])
    else .isFalse (by intro hh; cases hh; exact h rfl)

/-! ## Data model (the dataclasses of `aseprite_parser.py`) -/

/-- `Layer` dataclass. -/
structure Layer where
  name : List Nat
  visible : Bool
  opacity : Nat
  blend_mode : Nat
  layer_type : Nat
  child_level : Nat
deriving DecidableEq

/-- `Cel` dataclass. -/
structure Cel where
  layer_index : Nat
  x : Int
  y : Int
  opacity : Nat
  width : Nat
  height : Nat
  pixels : Option (List Nat) := none
  linked_frame : Option Nat := none
deriving DecidableEq

/-- `Tag` dataclass. -/
structure Tag where
  name : List Nat
  from_frame : Nat
  to_frame : Nat
  direction : Nat
deriving DecidableEq

/-- `AsepriteFile` dataclass. -/
structure AsepriteFile where
  width : Nat
  height : Nat
  frame_count : Nat
  color_depth : Nat
  layers : List Layer := []
  frames : List (List Cel) := []
  tags : List Tag := []
  palette : List (Nat × Nat × Nat × Nat) := []
deriving DecidableEq

def ASE_HEADER_MAGIC : Nat := 0xA5E0
def ASE_FRAME_MAGIC : Nat := 0xF1FA
def CHUNK_LAYER : Nat := 0x2004
def CHUNK_CEL : Nat := 0x2005
def CHUNK_TAGS : Nat := 0x2018
def CHUNK_PALETTE : Nat := 0x2019
def COLOR_RGBA : Nat := 32
def COLOR_GRAYSCALE : Nat := 16
def COLOR_INDEXED : Nat := 8
def CEL_RAW : Nat := 0
def CEL_LINKED : Nat := 1
def CEL_COMPRESSED : Nat := 2

/-! ## `_convert_to_rgba` -/

/-- The grayscale loop of `_convert_to_rgba`: 2 bytes per pixel
(`gray, alpha`), expanded to `gray, gray, gray, alpha`; a trailing odd byte
gets alpha 255. -/
def grayExpand : List Nat → List Nat
  | [] => []
  | [g] => [g, g, g, 255]
  | g :: a :: rest => g :: g :: g :: a :: grayExpand rest

/-- The indexed loop of `_convert_to_rgba`: each byte expands to
`byte, byte, byte, 255` (the source's grayscale stopgap; the palette is not
consulted). -/
def indexedExpand : List Nat → List Nat
  | [] => []
  | b :: rest => b :: b :: b :: 255 :: indexedExpand rest

/-- `_convert_to_rgba(data, color_depth, width, height)`. The width/height
arguments are accepted and ignored, as in the source. -/
def convertToRgba (data : List Nat) (color_depth : Nat) (_width _height : Nat) :
    List Nat :=
  if color_depth = COLOR_RGBA then data
  else if color_depth = COLOR_GRAYSCALE then grayExpand data
  else if color_depth = COLOR_INDEXED then indexedExpand data
  else data

/-! ## Chunk parsers -/

/-- `_parse_layer_chunk`. Guards reproduce where `struct.unpack_from` /
direct indexing would raise on a short buffer. -/
def parseLayerChunk (d : List Nat) : Except PyErr Layer :=
  if d.length < 6 then .error .structError
  else
    let flags := readU16 d 0
    let layer_type := readU16 d 2
    let child_level := readU16 d 4
    if d.length < 12 then .error .structError
    else
      let blend_mode := readU16 d 10
      if d.length < 13 then .error .indexError
      else
        let opacity := byteAt d 12
        if d.length < 18 then .error .structError
        else
          let name_len := readU16 d 16
          let name := pySlice d 18 (18 + name_len)
          .ok { name := name, visible := flags % 2 == 1, opacity := opacity,
                blend_mode := blend_mode, layer_type := layer_type,
                child_level := child_level }

/-- `_parse_cel_chunk`. `zd` models `zlib.decompress` (`none` = raised
`zlib.error`). Note that for a linked cel the source reads the link target
with `unpack_from("<H", data, 7)`, i.e. from offset 7 — the cel-type field
itself. -/
def parseCelChunk (zd : List Nat → Option (List Nat)) (d : List Nat)
    (color_depth : Nat) : Except PyErr (Option Cel) :=
  if d.length < 9 then .error .structError
  else
    let layer_index := readU16 d 0
    let x := readS16 d 2
    let y := readS16 d 4
    let opacity := byteAt d 6
    let cel_type := readU16 d 7
    if cel_type = CEL_LINKED then
      let linked_frame := readU16 d 7
      .ok (some { layer_index := layer_index, x := x, y := y,
                  opacity := opacity, width := 0, height := 0,
                  pixels := none, linked_frame := some linked_frame })
    else if cel_type = CEL_RAW ∨ cel_type = CEL_COMPRESSED then
      if d.length < 20 then .error .structError
      else
        let width := readU16 d 16
        let height := readU16 d 18
        let rawRes : Except PyErr (List Nat) :=
          if cel_type = CEL_RAW then .ok (d.drop 20)
          else
            match zd (d.drop 20) with
            | none => .error .zlibError
            | some p => .ok p
        match rawRes with
        | .error e => .error e
        | .ok raw =>
            let rgba := convertToRgba raw color_depth width height
            .ok (some { layer_index := layer_index, x := x, y := y,
                        opacity := opacity, width := width, height := height,
                        pixels := some rgba, linked_frame := none })
    else .ok none

/-- The per-tag loop of `_parse_tags_chunk`, with the remaining tag count as
fuel (the `for _ in range(num_tags)` bound). -/
def tagsLoop (d : List Nat) : Nat → Nat → List Tag
  | _, 0 => []
  | offset, n + 1 =>
    if d.length < offset + 18 then []
    else
      let from_frame := readU16 d offset
      let to_frame := readU16 d (offset + 2)
      let direction := byteAt d (offset + 4)
      let name_len := readU16 d (offset + 16)
      let name := pySlice d (offset + 18) (offset + 18 + name_len)
      { name := name, from_frame := from_frame, to_frame := to_frame,
        direction := direction } :: tagsLoop d (offset + 18 + name_len) n

/-- `_parse_tags_chunk`. -/
def parseTagsChunk (d : List Nat) : Except PyErr (List Tag) :=
  if d.length < 2 then .error .structError
  else .ok (tagsLoop d 10 (readU16 d 0))

/-- The per-entry loop of `_parse_palette_chunk`, with the declared entry
count as fuel. -/
def paletteLoop (d : List Nat) : Nat → Nat → Except PyErr (List (Nat × Nat × Nat × Nat))
  | _, 0 => .ok []
  | offset, n + 1 =>
    if d.length < offset + 6 then .ok []
    else
      let flags := readU16 d offset
      let entry := (byteAt d (offset + 2), byteAt d (offset + 3),
                    byteAt d (offset + 4), byteAt d (offset + 5))
      let offset' := offset + 6
      if flags % 2 = 1 then
        if d.length < offset' + 2 then .error .structError
        else
          let name_len := readU16 d offset'
          match paletteLoop d (offset' + 2 + name_len) n with
          | .error e => .error e
          | .ok rest => .ok (entry :: rest)
      else
        match paletteLoop d offset' n with
        | .error e => .error e
        | .ok rest => .ok (entry :: rest)

/-- `_parse_palette_chunk`. The loop runs `last_idx - first_idx + 1` times
(zero times when the range is downward, as Python's `range` is then empty). -/
def parsePaletteChunk (d : List Nat) : Except PyErr (List (Nat × Nat × Nat × Nat)) :=
  if d.length < 12 then .error .structError
  else
    let first_idx := readU32 d 4
    let last_idx := readU32 d 8
    paletteLoop d 20 (last_idx + 1 - first_idx)

/-! ## Frame and file parsing -/

/-- The chunk-walking loop of `_parse_frame`: `fuel` is the declared chunk
count, `cels` the accumulator, `ase` the document being mutated (layers /
tags / palette). -/
def parseChunks (zd : List Nat → Option (List Nat)) (data : List Nat) :
    Nat → Nat → AsepriteFile → List Cel → Except PyErr (List Cel × AsepriteFile)
  | _, 0, ase, cels => .ok (cels, ase)
  | chunk_offset, n + 1, ase, cels =>
    if data.length < chunk_offset + 6 then .ok (cels, ase)
    else
      let chunk_size := readU32 data chunk_offset
      let chunk_type := readU16 data (chunk_offset + 4)
      let chunk_data := pySlice data (chunk_offset + 6) (chunk_offset + chunk_size)
      if chunk_type = CHUNK_LAYER then
        match parseLayerChunk chunk_data with
        | .error e => .error e
        | .ok layer =>
            parseChunks zd data (chunk_offset + chunk_size) n
              { ase with layers := ase.layers ++ [layer] } cels
      else if chunk_type = CHUNK_CEL then
        match parseCelChunk zd chunk_data ase.color_depth with
        | .error e => .error e
        | .ok none => parseChunks zd data (chunk_offset + chunk_size) n ase cels
        | .ok (some cel) =>
            parseChunks zd data (chunk_offset + chunk_size) n ase (cels ++ [cel])
      else if chunk_type = CHUNK_TAGS then
        match parseTagsChunk chunk_data with
        | .error e => .error e
        | .ok tags =>
            parseChunks zd data (chunk_offset + chunk_size) n
              { ase with tags := ase.tags ++ tags } cels
      else if chunk_type = CHUNK_PALETTE then
        match parsePaletteChunk chunk_data with
        | .error e => .error e
        | .ok palette =>
            parseChunks zd data (chunk_offset + chunk_size) n
              { ase with palette := palette } cels
      else parseChunks zd data (chunk_offset + chunk_size) n ase cels

/-- `_parse_frame`: returns the frame's cels, the next offset and the updated
document. -/
def parseFrame (zd : List Nat → Option (List Nat)) (data : List Nat)
    (offset : Nat) (ase : AsepriteFile) :
    Except PyErr (List Cel × Nat × AsepriteFile) :=
  if data.length < offset + 16 then .ok ([], offset, ase)
  else
    let frame_size := readU32 data offset
    let magic := readU16 data (offset + 4)
    if magic ≠ ASE_FRAME_MAGIC then .error .valueError
    else
      let old_chunks := readU16 data (offset + 6)
      let num_chunks := if old_chunks = 0xFFFF then readU32 data (offset + 12)
                        else old_chunks
      match parseChunks zd data (offset + 16) num_chunks ase [] with
      | .error e => .error e
      | .ok (cels, ase') => .ok (cels, offset + frame_size, ase')

/-- The `for frame_idx in range(frames)` loop of `_parse_file`, with the
remaining frame count as fuel. -/
def parseFramesLoop (zd : List Nat → Option (List Nat)) (data : List Nat) :
    Nat → Nat → AsepriteFile → Except PyErr AsepriteFile
  | 0, _, ase => .ok ase
  | n + 1, offset, ase =>
    if data.length ≤ offset then .ok ase
    else
      match parseFrame zd data offset ase with
      | .error e => .error e
      | .ok (cels, offset', ase') =>
          parseFramesLoop zd data n offset'
            { ase' with frames := ase'.frames ++ [cels] }

/-- `_parse_file` on an in-memory byte buffer. -/
def parseFile (zd : List Nat → Option (List Nat)) (data : List Nat) :
    Except PyErr AsepriteFile :=
  if data.length < 128 then .error .valueError
  else
    let magic := readU16 data 4
    let frames := readU16 data 6
    let width := readU16 data 8
    let height := readU16 data 10
    let color_depth := readU16 data 12
    if magic ≠ ASE_HEADER_MAGIC then .error .valueError
    else
      parseFramesLoop zd data frames 128
        { width := width, height := height, frame_count := frames,
          color_depth := color_depth }

/-- The metadata record returned by `parse_aseprite`. -/
structure AseMeta where
  width : Nat
  height : Nat
  frame_count : Nat
  color_depth : Nat
  tags : List (List Nat)
  duration_ms : Nat
deriving DecidableEq

/-- `parse_aseprite`: parse the file and build the metadata dict. -/
def parseAseprite (zd : List Nat → Option (List Nat)) (data : List Nat) :
    Except PyErr AseMeta :=
  match parseFile zd data with
  | .error e => .error e
  | .ok ase =>
      .ok { width := ase.width, height := ase.height,
            frame_count := ase.frame_count, color_depth := ase.color_depth,
            tags := ase.tags.map Tag.name, duration_ms := 0 }

/-! ## `_render_frame` (frame compositor)

Rasters (PIL `Image` objects in `RGBA` mode) are modelled as a width, a
height and a pixel function; `Image.alpha_composite`'s straight-alpha
source-over blend is modelled pixelwise. -/

/-- One RGBA pixel. -/
abbrev RGBAPix : Type := Nat × Nat × Nat × Nat

/-- A PIL `RGBA` image: dimensions plus pixel access. -/
structure Raster where
  width : Nat
  height : Nat
  px : Nat → Nat → RGBAPix

/-- `Image.new("RGBA", (w, h), (0, 0, 0, 0))`. -/
def transparentCanvas (w h : Nat) : Raster :=
  { width := w, height := h, px := fun _ _ => (0, 0, 0, 0) }

/-- `Image.frombytes("RGBA", (w, h), pixels)`: pixel `(x, y)` is the 4-byte
group at `4 * (y * w + x)`. -/
def rasterFromBytes (w h : Nat) (pixels : List Nat) : Raster :=
  { width := w, height := h,
    px := fun x y =>
      (byteAt pixels (4 * (y * w + x)), byteAt pixels (4 * (y * w + x) + 1),
       byteAt pixels (4 * (y * w + x) + 2), byteAt pixels (4 * (y * w + x) + 3)) }

/-- `img.putalpha(img.getchannel("A").point(f))`: replace each pixel's alpha
by `f alpha`. -/
def mapAlpha (r : Raster) (f : Nat → Nat) : Raster :=
  { r with px := fun x y =>
      let p := r.px x y
      (p.1, p.2.1, p.2.2.1, f p.2.2.2) }

/-- The opacity application in `_render_frame`: scale alpha by `op / 255`,
skipped (identity) when `op` is already 255. -/
def applyOpacityStep (op : Nat) (r : Raster) : Raster :=
  if op < 255 then mapAlpha r (fun a => a * op / 255) else r

/-- The scalar alpha map of `applyOpacityStep` (the `lambda x: x * op // 255`
passed to `point`, guarded by `op < 255`). -/
def opacityPoint (op a : Nat) : Nat := if op < 255 then a * op / 255 else a

/-- Straight-alpha source-over blend of one pixel, modelling
`Image.alpha_composite`. -/
def overPixel (dst src : RGBAPix) : RGBAPix :=
  let sa := src.2.2.2
  let da := dst.2.2.2
  let outA := sa + da * (255 - sa) / 255
  if outA = 0 then (0, 0, 0, 0)
  else
    ((src.1 * sa + dst.1 * (da * (255 - sa) / 255)) / outA,
     (src.2.1 * sa + dst.2.1 * (da * (255 - sa) / 255)) / outA,
     (src.2.2.1 * sa + dst.2.2.1 * (da * (255 - sa) / 255)) / outA,
     outA)

/-- `result.alpha_composite(cel_img, (ox, oy))`: blend `src` over `dst` with
its top-left corner at `(ox, oy)`; destination pixels outside the pasted
region keep their value. -/
def alphaComposite (dst src : Raster) (ox oy : Int) : Raster :=
  { dst with px := fun x y =>
      if ox ≤ (x : Int) ∧ (x : Int) < ox + src.width ∧
         oy ≤ (y : Int) ∧ (y : Int) < oy + src.height then
        overPixel (dst.px x y) (src.px ((x : Int) - ox).toNat ((y : Int) - oy).toNat)
      else dst.px x y }

/-- Fallback layer for the renderer's guarded `layers[i]` accesses (the
default is never read: every access is behind `i < layers.length`). -/
def defaultLayer : Layer :=
  { name := [], visible := true, opacity := 255, blend_mode := 0,
    layer_type := 0, child_level := 0 }

/-- The loop body of `_render_frame`: composite one cel onto the canvas,
skipping invisible layers and cels without pixel payload. -/
def compositeCel (layers : List Layer) (canvas : Raster) (cel : Cel) : Raster :=
  if cel.layer_index < layers.length ∧
     (layers.getD cel.layer_index defaultLayer).visible = false then canvas
  else if cel.pixels = none ∨ cel.width = 0 ∨ cel.height = 0 then canvas
  else
    let cel_img := rasterFromBytes cel.width cel.height (cel.pixels.getD [])
    let img1 := applyOpacityStep cel.opacity cel_img
    let img2 :=
      if cel.layer_index < layers.length then
        applyOpacityStep (layers.getD cel.layer_index defaultLayer).opacity img1
      else img1
    alphaComposite canvas img2 cel.x cel.y

/-- `sorted(cels, key=lambda c: c.layer_index)`: Python's `sorted` is stable,
modelled by the stable insertion sort. -/
def sortCels (cels : List Cel) : List Cel :=
  List.insertionSort (fun a b => a.layer_index ≤ b.layer_index) cels

/-- `_render_frame(ase, frame_idx)`. -/
def renderFrame (ase : AsepriteFile) (frame_idx : Nat) : Raster :=
  let result := transparentCanvas ase.width ase.height
  if ase.frames.length ≤ frame_idx then result
  else
    (sortCels (ase.frames.getD frame_idx [])).foldl (compositeCel ase.layers) result

/-- `_render_frame` restricted to the pixel-bearing cels: identical code, but
cels with no pixel payload (in particular every linked cel) or a zero
dimension are removed before compositing. -/
def renderFramePixelOnly (ase : AsepriteFile) (frame_idx : Nat) : Raster :=
  let result := transparentCanvas ase.width ase.height
  if ase.frames.length ≤ frame_idx then result
  else
    ((sortCels (ase.frames.getD frame_idx [])).filter
        (fun c => !(c.pixels = none ∨ c.width = 0 ∨ c.height = 0 : Bool))).foldl
      (compositeCel ase.layers) result

/-! ## `detect_first_sprite_bounds` (`src/index.py`)

The input is the opened PIL image: a mode string, dimensions, and the bytes
of the alpha channel (`img.split()[3].tobytes()`, row-major). -/

/-- An opened PIL image as the boundary detector consumes it. -/
structure PImage where
  mode : String
  width : Nat
  height : Nat
  alpha : List Nat

def ALPHA_THRESHOLD : Nat := 10

/-- A column is "empty" when every pixel in it has alpha ≤ threshold. -/
def colEmpty (img : PImage) (x : Nat) : Bool :=
  (List.range img.height).all fun y =>
    byteAt img.alpha (y * img.width + x) ≤ ALPHA_THRESHOLD

/-- A row is "empty" when every pixel in it has alpha ≤ threshold. -/
def rowEmpty (img : PImage) (y : Nat) : Bool :=
  (List.range img.width).all fun x =>
    byteAt img.alpha (y * img.width + x) ≤ ALPHA_THRESHOLD

/-- The gap-scan loop: walk the indices in order; a non-empty index sets the
`found_content` flag; the first empty index after the flag is set is the gap
(`some`), and falling off the end yields `none`. -/
def gapScanList (emptyAt : Nat → Bool) : List Nat → Bool → Option Nat
  | [], _ => none
  | i :: rest, found =>
    if emptyAt i = false then gapScanList emptyAt rest true
    else if found then some i
    else gapScanList emptyAt rest false

/-- `first_gap_col`, defaulting to the full width when no gap is found. -/
def firstGapCol (img : PImage) : Nat :=
  (gapScanList (colEmpty img) (List.range img.width) false).getD img.width

/-- `first_gap_row`, defaulting to the full height when no gap is found. -/
def firstGapRow (img : PImage) : Nat :=
  (gapScanList (rowEmpty img) (List.range img.height) false).getD img.height

/-- The above-threshold pixels of the crop `[0, gc) × [0, gr)` (the points
`getbbox` sees as nonzero after thresholding). -/
def contentPoints (img : PImage) (gc gr : Nat) : List (Nat × Nat) :=
  (List.range gr).flatMap fun y =>
    (List.range gc).filterMap fun x =>
      if ALPHA_THRESHOLD < byteAt img.alpha (y * img.width + x) then some (x, y)
      else none

/-- `thresholded.getbbox()` followed by the source's conversion to
`(x, y, width, height)`: the tight box around the given points, or `none`
when there are none. -/
def bboxOfPoints : List (Nat × Nat) → Option (Nat × Nat × Nat × Nat)
  | [] => none
  | p :: ps =>
    let minX := ps.foldl (fun m q => min m q.1) p.1
    let maxX := ps.foldl (fun m q => max m q.1) p.1
    let minY := ps.foldl (fun m q => min m q.2) p.2
    let maxY := ps.foldl (fun m q => max m q.2) p.2
    some (minX, minY, maxX + 1 - minX, maxY + 1 - minY)

/-- `detect_first_sprite_bounds` on an already-opened image. -/
def detectFirstSpriteBounds (img : PImage) : Option (Nat × Nat × Nat × Nat) :=
  if img.mode ≠ "RGBA" then none
  else bboxOfPoints (contentPoints img (firstGapCol img) (firstGapRow img))

/-- The phase-2 content box over the full image extent (the crop bounds the
detector falls back to when no gap exists in either dimension). -/
def fullContentBounds (img : PImage) : Option (Nat × Nat × Nat × Nat) :=
  bboxOfPoints (contentPoints img img.width img.height)

/-! ## Synthetic container builder

A byte-level encoder for containers made of layer chunks and raw cel chunks,
mirroring the fixture builders of `test_aseprite_parser.py`
(`create_aseprite_header`, `create_frame`, `create_layer_chunk`, and the cel
chunk layout with cel type raw instead of compressed). It is the "synthetic
container" of the round-trip property. -/

/-- One byte, as emitted by `struct.pack("<B", ·)`-style fields. -/
def eU8 (n : Nat) : List Nat := [n % 256]

/-- `struct.pack("<H", n)`. -/
def eU16 (n : Nat) : List Nat := [n % 256, n / 256 % 256]

/-- `struct.pack("<I", n)`. -/
def eU32 (n : Nat) : List Nat :=
  [n % 256, n / 256 % 256, n / 65536 % 256, n / 16777216 % 256]

/-- `struct.pack("<h", v)` (two's complement, little-endian). -/
def eS16 (v : Int) : List Nat := eU16 (v % 65536).toNat

/-- The 128-byte file header with the given dimensions, frame count and
color depth. -/
def encodeHeader (width height frames color_depth : Nat) : List Nat :=
  eU32 0 ++ eU16 ASE_HEADER_MAGIC ++ eU16 frames ++ eU16 width ++
    eU16 height ++ eU16 color_depth ++ eU32 1 ++ List.replicate 110 0

/-- A layer declaration for the builder. -/
structure LayerSpec where
  name : List Nat
  visible : Bool
  opacity : Nat
  blend_mode : Nat
  layer_type : Nat
  child_level : Nat
deriving DecidableEq

/-- A raw cel declaration for the builder. -/
structure CelSpec where
  layer_index : Nat
  x : Int
  y : Int
  opacity : Nat
  width : Nat
  height : Nat
  pixels : List Nat
deriving DecidableEq

/-- One chunk of a synthetic frame. -/
inductive ChunkSpec where
  | layer (s : LayerSpec)
  | cel (c : CelSpec)
deriving DecidableEq

/-- Payload of a layer chunk (everything after the 6-byte chunk header). -/
def encodeLayerPayload (s : LayerSpec) : List Nat :=
  eU16 (if s.visible then 1 else 0) ++ eU16 s.layer_type ++
    eU16 s.child_level ++ eU16 0 ++ eU16 0 ++ eU16 s.blend_mode ++
    [s.opacity] ++ [0, 0, 0] ++ eU16 s.name.length ++ s.name

/-- Payload of a raw (uncompressed) cel chunk. -/
def encodeCelRawPayload (c : CelSpec) : List Nat :=
  eU16 c.layer_index ++ eS16 c.x ++ eS16 c.y ++ [c.opacity] ++
    eU16 CEL_RAW ++ eU16 0 ++ [0, 0, 0, 0, 0] ++ eU16 c.width ++
    eU16 c.height ++ c.pixels

/-- Payload of a compressed cel chunk carrying `payload` as the compressed
byte stream. -/
def encodeCelCompressedPayload (c : CelSpec) (payload : List Nat) : List Nat :=
  eU16 c.layer_index ++ eS16 c.x ++ eS16 c.y ++ [c.opacity] ++
    eU16 CEL_COMPRESSED ++ eU16 0 ++ [0, 0, 0, 0, 0] ++ eU16 c.width ++
    eU16 c.height ++ payload

/-- A chunk: `(size, type)` header followed by the payload, with `size`
counting the header as in the format. -/
def encodeChunk (ty : Nat) (payload : List Nat) : List Nat :=
  eU32 (6 + payload.length) ++ eU16 ty ++ payload

def encodeChunkSpec : ChunkSpec → List Nat
  | .layer s => encodeChunk CHUNK_LAYER (encodeLayerPayload s)
  | .cel c => encodeChunk CHUNK_CEL (encodeCelRawPayload c)

/-- All the chunk bytes of one frame. -/
def encodeChunksBody (chunks : List ChunkSpec) : List Nat :=
  (chunks.map encodeChunkSpec).flatten

/-- One frame: 16-byte frame header (size, magic, chunk counts, duration)
followed by its chunks, exactly as `create_frame` lays it out. -/
def encodeFrame (chunks : List ChunkSpec) : List Nat :=
  eU32 (16 + (encodeChunksBody chunks).length) ++ eU16 ASE_FRAME_MAGIC ++
    eU16 (if chunks.length < 0xFFFF then chunks.length else 0xFFFF) ++
    eU16 100 ++ [0, 0] ++ eU32 chunks.length ++ encodeChunksBody chunks

/-- A synthetic RGBA-mode container: canvas size plus per-frame chunk lists. -/
structure DocSpec where
  width : Nat
  height : Nat
  frames : List (List ChunkSpec)
deriving DecidableEq

def encodeFramesBody (fs : List (List ChunkSpec)) : List Nat :=
  (fs.map encodeFrame).flatten

def encodeDoc (d : DocSpec) : List Nat :=
  encodeHeader d.width d.height d.frames.length COLOR_RGBA ++
    encodeFramesBody d.frames

/-- The `Layer` record the parser is expected to recover from a
`LayerSpec`. -/
def layerOfSpec (s : LayerSpec) : Layer :=
  { name := s.name, visible := s.visible, opacity := s.opacity,
    blend_mode := s.blend_mode, layer_type := s.layer_type,
    child_level := s.child_level }

/-- The `Cel` record the parser is expected to recover from a raw
`CelSpec`. -/
def celOfSpec (c : CelSpec) : Cel :=
  { layer_index := c.layer_index, x := c.x, y := c.y, opacity := c.opacity,
    width := c.width, height := c.height, pixels := some c.pixels,
    linked_frame := none }

/-- The layers declared by a chunk list, in file order. -/
def layersOfChunks (chunks : List ChunkSpec) : List Layer :=
  chunks.filterMap fun c =>
    match c with
    | .layer s => some (layerOfSpec s)
    | .cel _ => none

/-- The cels declared by a chunk list, in file order. -/
def celsOfChunks (chunks : List ChunkSpec) : List Cel :=
  chunks.filterMap fun c =>
    match c with
    | .layer _ => none
    | .cel s => some (celOfSpec s)

/-- All layers of the synthetic document, in file order. -/
def layersOfDoc (d : DocSpec) : List Layer :=
  d.frames.flatMap layersOfChunks

/-- The document the parser is expected to produce from `encodeDoc d`. -/
def expectedParse (d : DocSpec) : AsepriteFile :=
  { width := d.width, height := d.height, frame_count := d.frames.length,
    color_depth := COLOR_RGBA, layers := layersOfDoc d,
    frames := d.frames.map celsOfChunks, tags := [], palette := [] }

/-- Field-size bounds making a `LayerSpec` encodable byte-exactly. -/
def WFLayer (s : LayerSpec) : Prop :=
  s.opacity < 256 ∧ s.blend_mode < 65536 ∧ s.layer_type < 65536 ∧
    s.child_level < 65536 ∧ s.name.length < 65536

/-- Field-size bounds making a `CelSpec` encodable byte-exactly. -/
def WFCel (c : CelSpec) : Prop :=
  c.layer_index < 65536 ∧ -32768 ≤ c.x ∧ c.x < 32768 ∧ -32768 ≤ c.y ∧
    c.y < 32768 ∧ c.opacity < 256 ∧ c.width < 65536 ∧ c.height < 65536

def WFChunk : ChunkSpec → Prop
  | .layer s => WFLayer s
  | .cel c => WFCel c

/-- Well-formedness of a synthetic container: every declared field fits the
width of its binary encoding. -/
def WFDoc (d : DocSpec) : Prop :=
  d.width < 65536 ∧ d.height < 65536 ∧ d.frames.length < 65536 ∧
    (∀ f ∈ d.frames, (∀ c ∈ f, WFChunk c) ∧ f.length < 4294967296 ∧
      16 + (encodeChunksBody f).length < 4294967296)

instance (s : LayerSpec) : Decidable (WFLayer s) := by
  unfold WFLayer; infer_instance

instance (c : CelSpec) : Decidable (WFCel c) := by
  unfold WFCel; infer_instance

instance (c : ChunkSpec) : Decidable (WFChunk c) := by
  cases c <;> (unfold WFChunk; infer_instance)

instance (d : DocSpec) : Decidable (WFDoc d) := by
  unfold WFDoc; infer_instance

/-! ## Byte-exact reading of encoded data -/

/-- `l` occurs byte-for-byte inside `data` starting at `off`, with room. -/
def sliceEq (data : List Nat) (off : Nat) (l : List Nat) : Prop :=
  off + l.length ≤ data.length ∧ ∀ i, i < l.length → byteAt data (off + i) = byteAt l i

theorem sliceEq_self (l : List Nat) : sliceEq l 0 l :=
  ⟨by omega, fun i _ => by simp⟩

theorem sliceEq_append {d : List Nat} {off : Nat} {a b : List Nat}
    (h : sliceEq d off (a ++ b)) :
    sliceEq d off a ∧ sliceEq d (off + a.length) b := by
  obtain ⟨hlen, hb⟩ := h
  rw [List.length_append] at hlen
  refine ⟨⟨by omega, fun i hi => ?_⟩, ⟨by omega, fun i hi => ?_⟩⟩
  · rw [hb i (by rw [List.length_append]; omega)]
    unfold byteAt
    rw [List.getD_append _ _ _ _ hi]
  · have := hb (a.length + i) (by rw [List.length_append]; omega)
    rw [show off + a.length + i = off + (a.length + i) by omega, this]
    unfold byteAt
    rw [List.getD_append_right _ _ _ _ (by omega)]
    simp

theorem byteAt_of_sliceEq_single {d : List Nat} {off b : Nat}
    (h : sliceEq d off [b]) : byteAt d off = b := by
  simpa [byteAt] using h.2 0 (by simp)

theorem eU16_length (n : Nat) : (eU16 n).length = 2 := rfl

theorem eU32_length (n : Nat) : (eU32 n).length = 4 := rfl

theorem eS16_length (v : Int) : (eS16 v).length = 2 := rfl

theorem readU16_of_sliceEq {d : List Nat} {off n : Nat}
    (h : sliceEq d off (eU16 n)) : readU16 d off = n % 65536 := by
  have e0 : byteAt d (off + 0) = n % 256 := by
    simpa [eU16, byteAt] using h.2 0 (by simp [eU16])
  have e1 : byteAt d (off + 1) = n / 256 % 256 := by
    simpa [eU16, byteAt] using h.2 1 (by simp [eU16])
  rw [Nat.add_zero] at e0
  unfold readU16
  rw [e0, e1]
  omega

theorem readU16_of_sliceEq_lt {d : List Nat} {off n : Nat}
    (h : sliceEq d off (eU16 n)) (hn : n < 65536) : readU16 d off = n := by
  rw [readU16_of_sliceEq h]; omega

theorem readU32_of_sliceEq {d : List Nat} {off n : Nat}
    (h : sliceEq d off (eU32 n)) : readU32 d off = n % 4294967296 := by
  have e0 : byteAt d (off + 0) = n % 256 := by
    simpa [eU32, byteAt] using h.2 0 (by simp [eU32])
  have e1 : byteAt d (off + 1) = n / 256 % 256 := by
    simpa [eU32, byteAt] using h.2 1 (by simp [eU32])
  have e2 : byteAt d (off + 2) = n / 65536 % 256 := by
    simpa [eU32, byteAt] using h.2 2 (by simp [eU32])
  have e3 : byteAt d (off + 3) = n / 16777216 % 256 := by
    simpa [eU32, byteAt] using h.2 3 (by simp [eU32])
  rw [Nat.add_zero] at e0
  unfold readU32
  rw [e0, e1, e2, e3]
  omega

theorem readU32_of_sliceEq_lt {d : List Nat} {off n : Nat}
    (h : sliceEq d off (eU32 n)) (hn : n < 4294967296) : readU32 d off = n := by
  rw [readU32_of_sliceEq h]; omega

theorem readS16_of_sliceEq {d : List Nat} {off : Nat} {v : Int}
    (h : sliceEq d off (eS16 v)) (h1 : -32768 ≤ v) (h2 : v < 32768) :
    readS16 d off = v := by
  have hu : readU16 d off = (v % 65536).toNat % 65536 := readU16_of_sliceEq h
  unfold readS16
  rw [hu]
  simp only []
  split <;> omega

theorem pySlice_of_sliceEq {d : List Nat} {off : Nat} {l : List Nat}
    (h : sliceEq d off l) : pySlice d off (off + l.length) = l := by
  obtain ⟨hlen, hb⟩ := h
  unfold pySlice
  rw [show off + l.length - off = l.length by omega]
  apply List.ext_getElem
  · rw [List.length_take, List.length_drop]; omega
  · intro n h1 h2
    rw [List.getElem_take, List.getElem_drop]
    have := hb n h2
    unfold byteAt at this
    rw [List.getD_eq_getElem _ _ (show off + n < d.length by omega),
        List.getD_eq_getElem _ _ h2] at this
    exact this

theorem drop_sliceEq {d : List Nat} {off : Nat} {l : List Nat}
    (h : sliceEq d off l) (hend : d.length = off + l.length) :
    d.drop off = l := by
  have h1 := pySlice_of_sliceEq h
  unfold pySlice at h1
  rwa [show off + l.length - off = l.length by omega,
      List.take_of_length_le (by rw [List.length_drop]; omega)] at h1

/-! ## Round-trip lemmas: payloads -/

theorem encodeLayerPayload_length (s : LayerSpec) :
    (encodeLayerPayload s).length = 18 + s.name.length := by
  simp [encodeLayerPayload, eU16]
  omega

theorem encodeCelRawPayload_length (c : CelSpec) :
    (encodeCelRawPayload c).length = 20 + c.pixels.length := by
  simp [encodeCelRawPayload, eU16, eS16]
  omega

theorem sliceEq_cons {d : List Nat} {off b : Nat} {l : List Nat}
    (h : sliceEq d off (b :: l)) :
    byteAt d off = b ∧ sliceEq d (off + 1) l := by
  obtain ⟨hlen, hb⟩ := h
  rw [List.length_cons] at hlen
  refine ⟨?_, ⟨by omega, fun i hi => ?_⟩⟩
  · simpa [byteAt] using hb 0 (by simp)
  · have := hb (i + 1) (by simp; omega)
    rw [show off + (i + 1) = off + 1 + i by omega] at this
    simpa [byteAt] using this

theorem parseLayerChunk_encode (s : LayerSpec) (h : WFLayer s) :
    parseLayerChunk (encodeLayerPayload s) = .ok (layerOfSpec s) := by
  obtain ⟨hop, hbm, hlt, hcl, hnm⟩ := h
  have e : encodeLayerPayload s =
      eU16 (if s.visible then 1 else 0) ++ (eU16 s.layer_type ++
        (eU16 s.child_level ++ (eU16 0 ++ (eU16 0 ++ (eU16 s.blend_mode ++
          (s.opacity :: 0 :: 0 :: 0 :: (eU16 s.name.length ++ s.name))))))) := by
    simp [encodeLayerPayload]
  have h0 := sliceEq_self (encodeLayerPayload s)
  nth_rewrite 2 [e] at h0
  obtain ⟨hflags, h1⟩ := sliceEq_append h0
  simp only [eU16_length] at h1
  obtain ⟨hl2, h2⟩ := sliceEq_append h1
  simp only [eU16_length] at h2
  obtain ⟨hl3, h3⟩ := sliceEq_append h2
  simp only [eU16_length] at h3
  obtain ⟨_, h4⟩ := sliceEq_append h3
  simp only [eU16_length] at h4
  obtain ⟨_, h5⟩ := sliceEq_append h4
  simp only [eU16_length] at h5
  obtain ⟨hl6, h6⟩ := sliceEq_append h5
  simp only [eU16_length] at h6
  obtain ⟨hl7, h7⟩ := sliceEq_cons h6
  obtain ⟨_, h8⟩ := sliceEq_cons h7
  obtain ⟨_, h9⟩ := sliceEq_cons h8
  obtain ⟨_, h10⟩ := sliceEq_cons h9
  obtain ⟨hl9, h11⟩ := sliceEq_append h10
  simp only [eU16_length] at h11
  norm_num at hflags hl2 hl3 hl6 hl7 hl9 h11
  simp only [parseLayerChunk]
  rw [encodeLayerPayload_length s]
  rw [if_neg (by omega), if_neg (by omega), if_neg (by omega), if_neg (by omega)]
  rw [readU16_of_sliceEq_lt hflags (by cases s.visible <;> simp),
      readU16_of_sliceEq_lt hl2 hlt, readU16_of_sliceEq_lt hl3 hcl,
      readU16_of_sliceEq_lt hl6 hbm, hl7,
      readU16_of_sliceEq_lt hl9 hnm, pySlice_of_sliceEq h11]
  unfold layerOfSpec
  cases s.visible <;> rfl

theorem parseCelChunk_rawEncode (zd : List Nat → Option (List Nat))
    (c : CelSpec) (h : WFCel c) :
    parseCelChunk zd (encodeCelRawPayload c) COLOR_RGBA = .ok (some (celOfSpec c)) := by
  obtain ⟨hli, hx1, hx2, hy1, hy2, hop, hw, hht⟩ := h
  have e : encodeCelRawPayload c =
      eU16 c.layer_index ++ (eS16 c.x ++ (eS16 c.y ++
        (c.opacity :: (eU16 CEL_RAW ++ (eU16 0 ++
          (0 :: 0 :: 0 :: 0 :: 0 :: (eU16 c.width ++ (eU16 c.height ++ c.pixels)))))))) := by
    simp [encodeCelRawPayload]
  have h0 := sliceEq_self (encodeCelRawPayload c)
  nth_rewrite 2 [e] at h0
  obtain ⟨hli2, h1⟩ := sliceEq_append h0
  simp only [eU16_length] at h1
  obtain ⟨hx3, h2⟩ := sliceEq_append h1
  simp only [eS16_length] at h2
  obtain ⟨hy3, h3⟩ := sliceEq_append h2
  simp only [eS16_length] at h3
  obtain ⟨hop2, h4⟩ := sliceEq_cons h3
  obtain ⟨hct, h5⟩ := sliceEq_append h4
  simp only [eU16_length] at h5
  obtain ⟨_, h6⟩ := sliceEq_append h5
  simp only [eU16_length] at h6
  obtain ⟨_, h7⟩ := sliceEq_cons h6
  obtain ⟨_, h8⟩ := sliceEq_cons h7
  obtain ⟨_, h9⟩ := sliceEq_cons h8
  obtain ⟨_, h10⟩ := sliceEq_cons h9
  obtain ⟨_, h11⟩ := sliceEq_cons h10
  obtain ⟨hw2, h12⟩ := sliceEq_append h11
  simp only [eU16_length] at h12
  obtain ⟨hht2, h13⟩ := sliceEq_append h12
  simp only [eU16_length] at h13
  norm_num at hx3 hy3 hop2 hct hw2 hht2 h13
  simp only [parseCelChunk]
  rw [encodeCelRawPayload_length c]
  rw [if_neg (by omega)]
  rw [readU16_of_sliceEq_lt hct (by decide)]
  rw [if_neg (by decide), if_pos (show CEL_RAW = CEL_RAW ∨ CEL_RAW = CEL_COMPRESSED from Or.inl rfl)]
  rw [if_neg (by omega)]
  rw [if_pos (show CEL_RAW = CEL_RAW from rfl)]
  rw [readU16_of_sliceEq_lt hli2 hli, readS16_of_sliceEq hx3 hx1 hx2,
      readS16_of_sliceEq hy3 hy1 hy2, hop2,
      readU16_of_sliceEq_lt hw2 hw, readU16_of_sliceEq_lt hht2 hht]
  rw [drop_sliceEq h13 (by rw [encodeCelRawPayload_length c])]
  simp only [convertToRgba, COLOR_RGBA, if_pos rfl]
  rfl

/-! ## Round-trip lemmas: the chunk walk -/

theorem encodeChunk_length (ty : Nat) (p : List Nat) :
    (encodeChunk ty p).length = 6 + p.length := by
  simp [encodeChunk, eU32, eU16]
  omega

/-- Effect of dispatching one chunk on the accumulated document state. -/
def applyChunkAse (ase : AsepriteFile) : ChunkSpec → AsepriteFile
  | .layer s => { ase with layers := ase.layers ++ [layerOfSpec s] }
  | .cel _ => ase

def applyChunksAse (chunks : List ChunkSpec) (ase : AsepriteFile) : AsepriteFile :=
  chunks.foldl applyChunkAse ase

theorem applyChunkAse_color_depth (ase : AsepriteFile) (c : ChunkSpec) :
    (applyChunkAse ase c).color_depth = ase.color_depth := by
  cases c <;> rfl

theorem applyChunksAse_eq (chunks : List ChunkSpec) (ase : AsepriteFile) :
    applyChunksAse chunks ase =
      { ase with layers := ase.layers ++ layersOfChunks chunks } := by
  induction chunks generalizing ase with
  | nil => simp [applyChunksAse, layersOfChunks]
  | cons c rest ih =>
      cases c with
      | layer s =>
          rw [show applyChunksAse (.layer s :: rest) ase =
                applyChunksAse rest (applyChunkAse ase (.layer s)) from rfl, ih]
          simp [applyChunkAse, layersOfChunks]
      | cel cc =>
          rw [show applyChunksAse (.cel cc :: rest) ase =
                applyChunksAse rest (applyChunkAse ase (.cel cc)) from rfl, ih]
          simp [applyChunkAse, layersOfChunks]

theorem parseChunks_step (zd : List Nat → Option (List Nat)) (data : List Nat)
    (off n : Nat) (ase : AsepriteFile) (cels : List Cel) (c : ChunkSpec)
    (hW : WFChunk c) (hbound : (encodeChunkSpec c).length < 4294967296)
    (hd : ase.color_depth = COLOR_RGBA)
    (hs : sliceEq data off (encodeChunkSpec c)) :
    parseChunks zd data off (n + 1) ase cels =
      parseChunks zd data (off + (encodeChunkSpec c).length) n
        (applyChunkAse ase c) (cels ++ celsOfChunks [c]) := by
  cases c with
  | layer s =>
      have e : encodeChunkSpec (.layer s) =
          eU32 (6 + (encodeLayerPayload s).length) ++
            (eU16 CHUNK_LAYER ++ encodeLayerPayload s) := by
        simp [encodeChunkSpec, encodeChunk]
      rw [e] at hs
      have hroom := hs.1
      rw [List.length_append, List.length_append, eU32_length, eU16_length] at hroom
      obtain ⟨hsz, hs1⟩ := sliceEq_append hs
      simp only [eU32_length] at hs1
      obtain ⟨hty, hs2⟩ := sliceEq_append hs1
      simp only [eU16_length] at hs2
      rw [show off + 4 + 2 = off + 6 by omega] at hs2
      have hlen : (encodeChunkSpec (ChunkSpec.layer s)).length =
          6 + (encodeLayerPayload s).length := by
        rw [show encodeChunkSpec (ChunkSpec.layer s) =
              encodeChunk CHUNK_LAYER (encodeLayerPayload s) from rfl,
            encodeChunk_length]
      rw [hlen] at hbound
      simp only [parseChunks]
      rw [if_neg (by omega)]
      rw [readU32_of_sliceEq_lt hsz hbound]
      rw [readU16_of_sliceEq_lt hty (by decide)]
      rw [show off + (6 + (encodeLayerPayload s).length) =
            off + 6 + (encodeLayerPayload s).length by omega]
      rw [pySlice_of_sliceEq hs2]
      rw [if_pos rfl]
      rw [parseLayerChunk_encode s hW]
      rw [hlen]
      rw [show off + (6 + (encodeLayerPayload s).length) =
            off + 6 + (encodeLayerPayload s).length by omega]
      simp [applyChunkAse, celsOfChunks]
  | cel cc =>
      have e : encodeChunkSpec (.cel cc) =
          eU32 (6 + (encodeCelRawPayload cc).length) ++
            (eU16 CHUNK_CEL ++ encodeCelRawPayload cc) := by
        simp [encodeChunkSpec, encodeChunk]
      rw [e] at hs
      have hroom := hs.1
      rw [List.length_append, List.length_append, eU32_length, eU16_length] at hroom
      obtain ⟨hsz, hs1⟩ := sliceEq_append hs
      simp only [eU32_length] at hs1
      obtain ⟨hty, hs2⟩ := sliceEq_append hs1
      simp only [eU16_length] at hs2
      rw [show off + 4 + 2 = off + 6 by omega] at hs2
      have hlen : (encodeChunkSpec (ChunkSpec.cel cc)).length =
          6 + (encodeCelRawPayload cc).length := by
        rw [show encodeChunkSpec (ChunkSpec.cel cc) =
              encodeChunk CHUNK_CEL (encodeCelRawPayload cc) from rfl,
            encodeChunk_length]
      rw [hlen] at hbound
      simp only [parseChunks]
      rw [if_neg (by omega)]
      rw [readU32_of_sliceEq_lt hsz hbound]
      rw [readU16_of_sliceEq_lt hty (by decide)]
      rw [show off + (6 + (encodeCelRawPayload cc).length) =
            off + 6 + (encodeCelRawPayload cc).length by omega]
      rw [pySlice_of_sliceEq hs2]
      rw [if_neg (by decide), if_pos rfl]
      rw [hd, parseCelChunk_rawEncode zd cc hW]
      rw [hlen]
      rw [show off + (6 + (encodeCelRawPayload cc).length) =
            off + 6 + (encodeCelRawPayload cc).length by omega]
      simp [applyChunkAse, celsOfChunks]

theorem encodeChunksBody_cons (c : ChunkSpec) (rest : List ChunkSpec) :
    encodeChunksBody (c :: rest) = encodeChunkSpec c ++ encodeChunksBody rest := by
  simp [encodeChunksBody]

theorem parseChunks_encodeList (zd : List Nat → Option (List Nat))
    (data : List Nat) (chunks : List ChunkSpec) (off : Nat)
    (ase : AsepriteFile) (cels : List Cel)
    (hW : ∀ c ∈ chunks, WFChunk c)
    (hbound : ∀ c ∈ chunks, (encodeChunkSpec c).length < 4294967296)
    (hd : ase.color_depth = COLOR_RGBA)
    (hs : sliceEq data off (encodeChunksBody chunks)) :
    parseChunks zd data off chunks.length ase cels =
      .ok (cels ++ celsOfChunks chunks, applyChunksAse chunks ase) := by
  induction chunks generalizing off ase cels with
  | nil => simp [parseChunks, celsOfChunks, applyChunksAse]
  | cons c rest ih =>
      rw [encodeChunksBody_cons] at hs
      obtain ⟨hs1, hs2⟩ := sliceEq_append hs
      rw [List.length_cons]
      rw [parseChunks_step zd data off rest.length ase cels c
            (hW c (by simp)) (hbound c (by simp)) hd hs1]
      rw [ih (off + (encodeChunkSpec c).length) (applyChunkAse ase c)
            (cels ++ celsOfChunks [c]) (fun x hx => hW x (List.mem_cons_of_mem c hx))
            (fun x hx => hbound x (List.mem_cons_of_mem c hx))
            (by rw [applyChunkAse_color_depth]; exact hd) hs2]
      cases c with
      | layer s => simp [celsOfChunks, applyChunksAse, applyChunkAse]
      | cel cc => simp [celsOfChunks, applyChunksAse, applyChunkAse]

/-! ## Round-trip lemmas: frames and the whole file -/

theorem encodeFrame_length (chunks : List ChunkSpec) :
    (encodeFrame chunks).length = 16 + (encodeChunksBody chunks).length := by
  simp [encodeFrame, eU32, eU16]
  omega

theorem encodeChunkSpec_length_le (c : ChunkSpec) (chunks : List ChunkSpec)
    (hc : c ∈ chunks) :
    (encodeChunkSpec c).length ≤ (encodeChunksBody chunks).length := by
  unfold encodeChunksBody
  rw [List.length_flatten]
  exact List.single_le_sum (fun x _ => Nat.zero_le x) _
    (List.mem_map_of_mem _ (List.mem_map_of_mem _ hc))

theorem parseFrame_encode (zd : List Nat → Option (List Nat)) (data : List Nat)
    (off : Nat) (ase : AsepriteFile) (chunks : List ChunkSpec)
    (hW : ∀ c ∈ chunks, WFChunk c)
    (hn : chunks.length < 4294967296)
    (hfs : 16 + (encodeChunksBody chunks).length < 4294967296)
    (hd : ase.color_depth = COLOR_RGBA)
    (hs : sliceEq data off (encodeFrame chunks)) :
    parseFrame zd data off ase =
      .ok (celsOfChunks chunks, off + (encodeFrame chunks).length,
           applyChunksAse chunks ase) := by
  have e : encodeFrame chunks =
      eU32 (16 + (encodeChunksBody chunks).length) ++ (eU16 ASE_FRAME_MAGIC ++
        (eU16 (if chunks.length < 0xFFFF then chunks.length else 0xFFFF) ++
          (eU16 100 ++ (0 :: 0 :: (eU32 chunks.length ++
            encodeChunksBody chunks))))) := by
    simp [encodeFrame]
  rw [e] at hs
  have hroom := hs.1
  simp only [List.length_append, List.length_cons, eU32_length, eU16_length] at hroom
  obtain ⟨hsz, h1⟩ := sliceEq_append hs
  simp only [eU32_length] at h1
  obtain ⟨hmg, h2⟩ := sliceEq_append h1
  simp only [eU16_length] at h2
  rw [show off + 4 + 2 = off + 6 by omega] at h2
  obtain ⟨hold, h3⟩ := sliceEq_append h2
  simp only [eU16_length] at h3
  rw [show off + 6 + 2 = off + 8 by omega] at h3
  obtain ⟨_, h4⟩ := sliceEq_append h3
  simp only [eU16_length] at h4
  rw [show off + 8 + 2 = off + 10 by omega] at h4
  obtain ⟨_, h5⟩ := sliceEq_cons h4
  rw [show off + 10 + 1 = off + 11 by omega] at h5
  obtain ⟨_, h6⟩ := sliceEq_cons h5
  rw [show off + 11 + 1 = off + 12 by omega] at h6
  obtain ⟨hnew, h7⟩ := sliceEq_append h6
  simp only [eU32_length] at h7
  rw [show off + 12 + 4 = off + 16 by omega] at h7
  have hbody := parseChunks_encodeList zd data chunks (off + 16) ase []
    hW (fun c hc => by
      have := encodeChunkSpec_length_le c chunks hc
      omega) hd h7
  simp only [parseFrame]
  rw [if_neg (by omega)]
  rw [readU32_of_sliceEq_lt hsz hfs]
  rw [readU16_of_sliceEq_lt hmg (by decide)]
  rw [if_neg (by simp)]
  rw [readU16_of_sliceEq_lt hold (by split <;> omega)]
  by_cases hcase : chunks.length < 0xFFFF
  · rw [if_pos hcase, if_neg (by omega)]
    rw [hbody]
    rw [encodeFrame_length]
    simp
  · rw [if_neg hcase, if_pos rfl]
    rw [readU32_of_sliceEq_lt hnew hn]
    rw [hbody]
    rw [encodeFrame_length]
    simp

theorem encodeFramesBody_cons (f : List ChunkSpec) (fs : List (List ChunkSpec)) :
    encodeFramesBody (f :: fs) = encodeFrame f ++ encodeFramesBody fs := by
  simp [encodeFramesBody]

theorem parseFramesLoop_encode (zd : List Nat → Option (List Nat))
    (data : List Nat) (fs : List (List ChunkSpec)) (off : Nat)
    (ase : AsepriteFile)
    (hW : ∀ f ∈ fs, (∀ c ∈ f, WFChunk c) ∧ f.length < 4294967296 ∧
      16 + (encodeChunksBody f).length < 4294967296)
    (hd : ase.color_depth = COLOR_RGBA)
    (hs : sliceEq data off (encodeFramesBody fs))
    (hend : data.length = off + (encodeFramesBody fs).length) :
    parseFramesLoop zd data fs.length off ase =
      .ok { ase with layers := ase.layers ++ fs.flatMap layersOfChunks,
                     frames := ase.frames ++ fs.map celsOfChunks } := by
  induction fs generalizing off ase with
  | nil => simp [parseFramesLoop]
  | cons f rest ih =>
      rw [encodeFramesBody_cons] at hs
      obtain ⟨hs1, hs2⟩ := sliceEq_append hs
      have hflen : (encodeFrame f).length = 16 + (encodeChunksBody f).length :=
        encodeFrame_length f
      have hroom := hs1.1
      rw [List.length_cons]
      simp only [parseFramesLoop]
      rw [if_neg (by omega)]
      obtain ⟨hWf, hnf, hfsf⟩ := hW f (by simp)
      simp only [parseFrame_encode zd data off ase f hWf hnf hfsf hd hs1,
                 applyChunksAse_eq]
      rw [ih (off + (encodeFrame f).length)
            { width := ase.width, height := ase.height,
              frame_count := ase.frame_count, color_depth := ase.color_depth,
              layers := ase.layers ++ layersOfChunks f,
              frames := ase.frames ++ [celsOfChunks f], tags := ase.tags,
              palette := ase.palette }
            (fun x hx => hW x (List.mem_cons_of_mem f hx)) hd hs2
            (by rw [hend, encodeFramesBody_cons, List.length_append]; omega)]
      simp [List.append_assoc]

theorem encodeHeader_length (w h f cd : Nat) :
    (encodeHeader w h f cd).length = 128 := by
  simp [encodeHeader, eU16, eU32]

theorem encodeDoc_length (d : DocSpec) :
    (encodeDoc d).length = 128 + (encodeFramesBody d.frames).length := by
  simp [encodeDoc, encodeHeader_length]

/-- Round trip: decoding a well-formed synthetic container recovers exactly
the declared frames, layers (in file order) and per-frame cels. -/
theorem parseFile_encodeDoc (zd : List Nat → Option (List Nat)) (d : DocSpec)
    (h : WFDoc d) :
    parseFile zd (encodeDoc d) = .ok (expectedParse d) := by
  obtain ⟨hw, hh, hn, hf⟩ := h
  have e : encodeDoc d =
      eU32 0 ++ (eU16 ASE_HEADER_MAGIC ++ (eU16 d.frames.length ++
        (eU16 d.width ++ (eU16 d.height ++ (eU16 COLOR_RGBA ++ (eU32 1 ++
          (List.replicate 110 0 ++ encodeFramesBody d.frames))))))) := by
    simp [encodeDoc, encodeHeader]
  have h0 := sliceEq_self (encodeDoc d)
  nth_rewrite 2 [e] at h0
  obtain ⟨_, h1⟩ := sliceEq_append h0
  simp only [eU32_length] at h1
  obtain ⟨hmg, h2⟩ := sliceEq_append h1
  simp only [eU16_length] at h2
  rw [show 0 + 4 + 2 = 6 by omega] at h2
  obtain ⟨hfr, h3⟩ := sliceEq_append h2
  simp only [eU16_length] at h3
  obtain ⟨hwd, h4⟩ := sliceEq_append h3
  simp only [eU16_length] at h4
  obtain ⟨hht, h5⟩ := sliceEq_append h4
  simp only [eU16_length] at h5
  obtain ⟨hcd, h6⟩ := sliceEq_append h5
  simp only [eU16_length] at h6
  obtain ⟨_, h7⟩ := sliceEq_append h6
  simp only [eU32_length] at h7
  obtain ⟨_, h8⟩ := sliceEq_append h7
  simp only [List.length_replicate] at h8
  rw [show 6 + 2 + 2 + 2 + 2 + 4 + 110 = 128 by omega] at h8
  norm_num at hmg hfr hwd hht hcd
  simp only [parseFile]
  rw [encodeDoc_length]
  rw [if_neg (by omega)]
  rw [readU16_of_sliceEq_lt hmg (by decide)]
  rw [readU16_of_sliceEq_lt hfr hn]
  rw [readU16_of_sliceEq_lt hwd hw]
  rw [readU16_of_sliceEq_lt hht hh]
  rw [readU16_of_sliceEq_lt hcd (by decide)]
  rw [if_neg (by simp)]
  rw [parseFramesLoop_encode zd (encodeDoc d) d.frames 128
        { width := d.width, height := d.height, frame_count := d.frames.length,
          color_depth := COLOR_RGBA }
        hf rfl h8 (by rw [encodeDoc_length])]
  simp [expectedParse, layersOfDoc]

/-! ## Renderer lemmas -/

theorem compositeCel_skip (layers : List Layer) (canvas : Raster) (c : Cel)
    (h : c.pixels = none ∨ c.width = 0 ∨ c.height = 0) :
    compositeCel layers canvas c = canvas := by
  unfold compositeCel
  by_cases h1 : (c.layer_index < layers.length ∧
      (layers.getD c.layer_index defaultLayer).visible = false)
  · rw [if_pos h1]
  · rw [if_neg h1, if_pos h]

theorem foldl_compositeCel_filter (layers : List Layer) (canvas : Raster)
    (l : List Cel) :
    l.foldl (compositeCel layers) canvas =
      (l.filter
        (fun c => !(c.pixels = none ∨ c.width = 0 ∨ c.height = 0 : Bool))).foldl
        (compositeCel layers) canvas := by
  induction l generalizing canvas with
  | nil => rfl
  | cons c rest ih =>
      rw [List.foldl_cons, List.filter_cons]
      by_cases h : (c.pixels = none ∨ c.width = 0 ∨ c.height = 0)
      · rw [compositeCel_skip layers canvas c h]
        rw [if_neg (by simp [h])]
        exact ih canvas
      · rw [if_pos (by simp [h]), List.foldl_cons]
        exact ih (compositeCel layers canvas c)

theorem mapAlpha_px (r : Raster) (f : Nat → Nat) (x y : Nat) :
    (mapAlpha r f).px x y =
      ((r.px x y).1, (r.px x y).2.1, (r.px x y).2.2.1, f ((r.px x y).2.2.2)) := rfl

/-! ## Boundary-detector lemmas -/

theorem gapScanList_eq_none (emptyAt : Nat → Bool) (l : List Nat) (found : Bool)
    (hsort : l.Pairwise (· < ·))
    (hfound : found = true → ∃ j, (∀ x ∈ l, j < x) ∧ emptyAt j = false)
    (hnogap : ∀ xg ∈ l, emptyAt xg = true →
      ¬∃ xc, xc < xg ∧ emptyAt xc = false) :
    gapScanList emptyAt l found = none := by
  induction l generalizing found with
  | nil => rfl
  | cons x rest ih =>
      rw [List.pairwise_cons] at hsort
      simp only [gapScanList]
      by_cases hx0 : emptyAt x = false
      · rw [if_pos hx0]
        exact ih true hsort.2 (fun _ => ⟨x, hsort.1, hx0⟩)
          (fun xg hg hxe => hnogap xg (List.mem_cons_of_mem _ hg) hxe)
      · have hxt : emptyAt x = true := by revert hx0; cases emptyAt x <;> simp
        rw [if_neg hx0]
        cases found with
        | true =>
            exfalso
            obtain ⟨j, hj, hjf⟩ := hfound rfl
            exact hnogap x (by simp) hxt ⟨j, hj x (by simp), hjf⟩
        | false =>
            simp only [Bool.false_eq_true, if_false]
            exact ih false hsort.2 (fun hko => by cases hko)
              (fun xg hg hxe => hnogap xg (List.mem_cons_of_mem _ hg) hxe)

theorem firstGapCol_full (img : PImage)
    (hcol : ∀ xg, xg < img.width → colEmpty img xg = true →
      ¬∃ xc, xc < xg ∧ colEmpty img xc = false) :
    firstGapCol img = img.width := by
  unfold firstGapCol
  rw [gapScanList_eq_none (colEmpty img) (List.range img.width) false
        (List.pairwise_lt_range _) (fun hko => by cases hko)
        (fun xg hg hxe => hcol xg (List.mem_range.mp hg) hxe)]
  rfl

theorem firstGapRow_full (img : PImage)
    (hrow : ∀ yg, yg < img.height → rowEmpty img yg = true →
      ¬∃ yc, yc < yg ∧ rowEmpty img yc = false) :
    firstGapRow img = img.height := by
  unfold firstGapRow
  rw [gapScanList_eq_none (rowEmpty img) (List.range img.height) false
        (List.pairwise_lt_range _) (fun hko => by cases hko)
        (fun yg hg hye => hrow yg (List.mem_range.mp hg) hye)]
  rfl

theorem contentPoints_mem {img : PImage} {gc gr x y : Nat} :
    (x, y) ∈ contentPoints img gc gr ↔
      x < gc ∧ y < gr ∧ ALPHA_THRESHOLD < byteAt img.alpha (y * img.width + x) := by
  unfold contentPoints
  simp only [List.mem_flatMap, List.mem_filterMap, List.mem_range]
  constructor
  · rintro ⟨y', hy', x', hx', hif⟩
    by_cases hc : ALPHA_THRESHOLD < byteAt img.alpha (y' * img.width + x')
    · rw [if_pos hc] at hif
      have hp := Option.some.inj hif
      obtain ⟨rfl, rfl⟩ : x' = x ∧ y' = y :=
        ⟨congrArg Prod.fst hp, congrArg Prod.snd hp⟩
      exact ⟨hx', hy', hc⟩
    · rw [if_neg hc] at hif
      cases hif
  · rintro ⟨hx, hy, ha⟩
    exact ⟨y, hy, x, hx, by rw [if_pos ha]⟩

theorem bboxOfPoints_isSome_of_mem {pts : List (Nat × Nat)} {p : Nat × Nat}
    (h : p ∈ pts) : (bboxOfPoints pts).isSome = true := by
  cases pts with
  | nil => cases h
  | cons q qs => rfl

theorem foldl_min_fst_le (ps : List (Nat × Nat)) (a : Nat) :
    ps.foldl (fun m q => min m q.1) a ≤ a := by
  induction ps generalizing a with
  | nil => exact le_refl a
  | cons q ps ih =>
      calc ps.foldl (fun m q => min m q.1) (min a q.1) ≤ min a q.1 := ih _
        _ ≤ a := min_le_left _ _

theorem le_foldl_max_fst (ps : List (Nat × Nat)) (a : Nat) :
    a ≤ ps.foldl (fun m q => max m q.1) a := by
  induction ps generalizing a with
  | nil => exact le_refl a
  | cons q ps ih =>
      calc a ≤ max a q.1 := le_max_left _ _
        _ ≤ ps.foldl (fun m q => max m q.1) (max a q.1) := ih _

theorem foldl_min_snd_le (ps : List (Nat × Nat)) (a : Nat) :
    ps.foldl (fun m q => min m q.2) a ≤ a := by
  induction ps generalizing a with
  | nil => exact le_refl a
  | cons q ps ih =>
      calc ps.foldl (fun m q => min m q.2) (min a q.2) ≤ min a q.2 := ih _
        _ ≤ a := min_le_left _ _

theorem le_foldl_max_snd (ps : List (Nat × Nat)) (a : Nat) :
    a ≤ ps.foldl (fun m q => max m q.2) a := by
  induction ps generalizing a with
  | nil => exact le_refl a
  | cons q ps ih =>
      calc a ≤ max a q.2 := le_max_left _ _
        _ ≤ ps.foldl (fun m q => max m q.2) (max a q.2) := ih _

theorem bboxOfPoints_pos {pts : List (Nat × Nat)} {b : Nat × Nat × Nat × Nat}
    (h : bboxOfPoints pts = some b) : 0 < b.2.2.1 ∧ 0 < b.2.2.2 := by
  cases pts with
  | nil => cases h
  | cons p ps =>
      unfold bboxOfPoints at h
      rw [Option.some.injEq] at h
      subst h
      have h1 := foldl_min_fst_le ps p.1
      have h2 := le_foldl_max_fst ps p.1
      have h3 := foldl_min_snd_le ps p.2
      have h4 := le_foldl_max_snd ps p.2
      constructor <;> simp <;> omega

/-! ## Concrete fixtures used by the claim theorems -/

/-- A decompressor that always fails (models `zlib.decompress` raising on a
corrupt stream); also used as the don't-care decompressor for inputs without
compressed cels. -/
def zdFail : List Nat → Option (List Nat) := fun _ => none

/-- A frame built from raw chunk byte strings (same layout as `encodeFrame`). -/
def encodeRawFrame (chunks : List (List Nat)) : List Nat :=
  eU32 (16 + chunks.flatten.length) ++ eU16 ASE_FRAME_MAGIC ++
    eU16 chunks.length ++ eU16 100 ++ [0, 0] ++ eU32 chunks.length ++
    chunks.flatten

/-- A linked-cel chunk payload: layer 0, offset (0,0), opacity 255, cel type
1 (linked), frame-position field 0. -/
def c1LinkedPayload : List Nat :=
  [0, 0, 0, 0, 0, 0, 255, 1, 0, 0, 0, 0, 0, 0, 0, 0, 0, 0]

/-- A 1×1 opaque red raw cel on layer 0 (as stored at frame 0). -/
def c1RedCel : Cel := ⟨0, 0, 0, 255, 1, 1, some [255, 0, 0, 255], none⟩

/-- The linked cel at frame 1 referencing frame 0, as the parser represents
it: no pixel payload, zero size. -/
def c1LinkedCel : Cel := ⟨0, 0, 0, 255, 0, 0, none, some 0⟩

def c1Layer : Layer := ⟨[76], true, 255, 0, 0, 0⟩

/-- Two-frame document: frame 0 stores the red cel, frame 1 links to it. -/
def c1Doc : AsepriteFile :=
  ⟨1, 1, 2, 32, [c1Layer], [[c1RedCel], [c1LinkedCel]], [], []⟩

/-- A 1×1 indexed-mode cel payload whose single pixel is palette index 5. -/
def c2Payload : List Nat := encodeCelRawPayload ⟨0, 0, 0, 255, 1, 1, [5]⟩

def c3CelSpec : CelSpec := ⟨0, 0, 0, 255, 1, 1, []⟩

/-- A compressed cel chunk whose compressed stream `[9, 9, 9]` is corrupt
(the modelled decompressor rejects it). -/
def c3BadPayload : List Nat := encodeCelCompressedPayload c3CelSpec [9, 9, 9]

def c3BadChunk : List Nat := encodeChunk CHUNK_CEL c3BadPayload

def c3GoodChunk : List Nat :=
  encodeChunkSpec (ChunkSpec.cel ⟨0, 0, 0, 255, 1, 1, [255, 0, 0, 255]⟩)

/-- Two-frame document whose first frame holds the corrupt compressed cel
and whose second frame holds a perfectly good raw cel. -/
def c3Bytes : List Nat :=
  encodeHeader 1 1 2 32 ++ encodeRawFrame [c3BadChunk] ++
    encodeRawFrame [c3GoodChunk]

/-- A chunk declaring size 0 with an unrecognized type tag. -/
def c4ZeroChunk : List Nat := eU32 0 ++ eU16 0x9999

def c4ZeroBytes : List Nat := encodeHeader 1 1 1 32 ++ encodeRawFrame [c4ZeroChunk]

/-- A chunk declaring size 1000 inside a 22-byte frame (it claims bytes far
past the frame and file end). -/
def c4BigChunk : List Nat := eU32 1000 ++ eU16 0x9999

def c4BigBytes : List Nat := encodeHeader 1 1 1 32 ++ encodeRawFrame [c4BigChunk]

def c4Ase : AsepriteFile := ⟨1, 1, 1, 32, [], [], [], []⟩

def c5Layer0 : LayerSpec := ⟨[76, 48], true, 255, 0, 0, 0⟩
def c5Layer1 : LayerSpec := ⟨[76, 49], true, 128, 0, 0, 0⟩
def c5Cel0 : CelSpec := ⟨0, 0, 0, 255, 1, 1, [255, 0, 0, 255]⟩
def c5Cel1 : CelSpec := ⟨1, 2, -1, 200, 1, 2, [1, 2, 3, 4, 5, 6, 7, 8]⟩

/-- Synthetic container with 2 frames, 2 layers and 2 cels. -/
def c5Doc : DocSpec :=
  { width := 3, height := 2,
    frames := [[ChunkSpec.layer c5Layer0, ChunkSpec.layer c5Layer1,
                ChunkSpec.cel c5Cel0], [ChunkSpec.cel c5Cel1]] }

/-- A 1×1 raster with alpha 200. -/
def c6Raster : Raster := rasterFromBytes 1 1 [10, 20, 30, 200]

/-- 2×2 diagonal: content touches every row and every column, so no gap
exists in either dimension. -/
def c7Diag : PImage := ⟨"RGBA", 2, 2, [255, 0, 0, 255]⟩

/-- 3×3 RGBA image with opaque pixels at (2,0) and (0,2) only. -/
def c8Scattered : PImage := ⟨"RGBA", 3, 3, [0, 0, 255, 0, 0, 0, 255, 0, 0]⟩

/-- 2×2 fully transparent RGBA image. -/
def c8Transparent : PImage := ⟨"RGBA", 2, 2, [0, 0, 0, 0]⟩

/-- Header-only file: 0 frames, canvas 3×4. -/
def c10Bytes : List Nat := encodeHeader 3 4 0 32

def c10Meta : AseMeta := ⟨3, 4, 0, 32, [], 0⟩

/-! ## Claim theorems -/

/-- Claim C1, counterexample: in a document whose frame 1 holds a linked cel
referencing frame 0 on the same visible layer, the renderer does not
rasterize the linked cel as the target cel's pixels — frame 1 renders fully
transparent while frame 0 renders the stored red pixel, so the two frames do
not rasterize identically. The first conjunct shows that the parser indeed
produces a pixel-less cel for a linked-cel chunk. -/
theorem c1_counterexample :
    parseCelChunk zdFail c1LinkedPayload COLOR_RGBA =
      .ok (some ⟨0, 0, 0, 255, 0, 0, none, some 1⟩) ∧
    (renderFrame c1Doc 0).px 0 0 = (255, 0, 0, 255) ∧
    (renderFrame c1Doc 1).px 0 0 = (0, 0, 0, 0) ∧
    (renderFrame c1Doc 1).px 0 0 ≠ (renderFrame c1Doc 0).px 0 0 := by
  refine ⟨by decide, by decide, by decide, by decide⟩

/-- Claim C1, amended: the renderer resolves no links at all — every cel
without a pixel payload (as every linked cel is parsed) or with a zero
dimension is skipped, so rendering a frame equals rendering only its
pixel-bearing cels; a linked cel contributes nothing. -/
theorem c1_linked_cels_contribute_nothing (ase : AsepriteFile) (f : Nat) :
    renderFrame ase f = renderFramePixelOnly ase f := by
  unfold renderFrame renderFramePixelOnly
  by_cases h : ase.frames.length ≤ f
  · rw [if_pos h, if_pos h]
  · rw [if_neg h, if_neg h, foldl_compositeCel_filter]

/-- Claim C2: on an Indexed-color-mode cel the converter expands palette
index 5 to the grayscale pixel (5,5,5,255) rather than the palette entry —
`_convert_to_rgba` does not even receive the palette (its own TODO admits
it), contradicting the documented `palette[index]` expansion. -/
theorem c2_indexed_expansion_ignores_palette :
    parseCelChunk zdFail c2Payload COLOR_INDEXED =
      .ok (some ⟨0, 0, 0, 255, 1, 1, some [5, 5, 5, 255], none⟩) ∧
    convertToRgba [5] COLOR_INDEXED 1 1 = [5, 5, 5, 255] ∧
    ([5, 5, 5, 255] : List Nat) ≠ [1, 2, 3, 4] := by
  refine ⟨by decide, by decide, by decide⟩

/-- Claim C3, counterexample: a document whose frame 0 holds a compressed
cel with a corrupt stream is not decoded best-effort — the whole decode
aborts with the uncaught decompression error (frame 1's good cel is lost),
while the same bytes decode fine when decompression succeeds. -/
theorem c3_counterexample :
    parseFile zdFail c3Bytes = .error .zlibError ∧
    exceptOk (parseFile zdFail c3Bytes) = false ∧
    exceptOk (parseFile (fun _ => some [255, 0, 0, 255]) c3Bytes) = true := by
  refine ⟨by decide, by decide, by decide⟩

/-- Claim C3, amended: a deflate-decompression failure on a compressed cel's
payload is not caught anywhere: `_parse_cel_chunk` surfaces the raw
decompression error, and it propagates so that the whole decode aborts — the
cel is not skipped and the rest of the document is not decoded. -/
theorem c3_decompression_failure_aborts_decode :
    (∀ (zd : List Nat → Option (List Nat)) (d : List Nat) (depth : Nat),
      20 ≤ d.length → readU16 d 7 = CEL_COMPRESSED → zd (d.drop 20) = none →
      parseCelChunk zd d depth = .error .zlibError) ∧
    parseFile zdFail c3Bytes = .error .zlibError := by
  refine ⟨?_, by decide⟩
  intro zd d depth hlen hct hzd
  unfold parseCelChunk
  rw [if_neg (by omega), hct]
  rw [if_neg (by decide), if_pos (Or.inr rfl), if_neg (by omega)]
  rw [if_neg (by decide), hzd]

/-- Claim C4, counterexample: a frame whose single chunk declares size 0
(resp. size 1000, far past the 22-byte frame and the 150-byte file) decodes
without any error — no FormatError is raised for either malformed size. -/
theorem c4_counterexample :
    readU32 c4ZeroBytes 144 = 0 ∧
    exceptOk (parseFile zdFail c4ZeroBytes) = true ∧
    readU32 c4BigBytes 144 = 1000 ∧
    c4BigBytes.length = 150 ∧
    exceptOk (parseFile zdFail c4BigBytes) = true := by
  refine ⟨by decide, by decide, by decide, by decide, by decide⟩

/-- Claim C4, amended: chunk sizes are never validated. A zero-size chunk of
unrecognized type merely consumes one chunk-count iteration without
advancing the cursor or erroring, and a chunk claiming to extend past the
frame boundary has its payload silently truncated by slicing; in both
concrete cases decode returns a Document instead of failing. -/
theorem c4_chunk_sizes_not_validated :
    (∀ (zd : List Nat → Option (List Nat)) (data : List Nat) (co n : Nat)
        (ase : AsepriteFile) (cels : List Cel),
      co + 6 ≤ data.length → readU32 data co = 0 →
      readU16 data (co + 4) ≠ CHUNK_LAYER → readU16 data (co + 4) ≠ CHUNK_CEL →
      readU16 data (co + 4) ≠ CHUNK_TAGS →
      readU16 data (co + 4) ≠ CHUNK_PALETTE →
      parseChunks zd data co (n + 1) ase cels =
        parseChunks zd data co n ase cels) ∧
    parseFile zdFail c4ZeroBytes = .ok ⟨1, 1, 1, 32, [], [[]], [], []⟩ ∧
    parseFile zdFail c4BigBytes = .ok ⟨1, 1, 1, 32, [], [[]], [], []⟩ := by
  refine ⟨?_, by decide, by decide⟩
  intro zd data co n ase cels hroom hsz h1 h2 h3 h4
  simp only [parseChunks]
  rw [if_neg (by omega), hsz]
  rw [if_neg h1, if_neg h2, if_neg h3, if_neg h4]
  rw [Nat.add_zero]

/-- Claim C5: decoding a well-formed synthetic container with N frames, M
layers and K raw cels recovers exactly N frame entries, the M layers in file
order, and per frame exactly the cels declared for it. -/
theorem c5_roundtrip (zd : List Nat → Option (List Nat)) (d : DocSpec)
    (h : WFDoc d) :
    ∃ ase, parseFile zd (encodeDoc d) = .ok ase ∧
      ase.frames.length = d.frames.length ∧
      ase.layers = layersOfDoc d ∧
      ase.frames = d.frames.map celsOfChunks ∧
      ase.frame_count = d.frames.length := by
  refine ⟨expectedParse d, parseFile_encodeDoc zd d h, ?_, rfl, rfl, rfl⟩
  simp [expectedParse]

/-- Witness for C5 at a concrete container with 2 frames, 2 layers, 2 cels. -/
theorem c5_roundtrip_witness :
    WFDoc c5Doc ∧
    (∃ ase, parseFile zdFail (encodeDoc c5Doc) = .ok ase ∧
      ase.frames.length = c5Doc.frames.length ∧
      ase.layers = layersOfDoc c5Doc ∧
      ase.frames = c5Doc.frames.map celsOfChunks ∧
      ase.frame_count = c5Doc.frames.length) :=
  ⟨by decide, c5_roundtrip zdFail c5Doc (by decide)⟩

/-- Claim C6: effective alpha is the multiplicative combination of cel and
layer opacity as applied in `_render_frame`: scaling a pixel's alpha by cel
opacity 128 and then layer opacity 128 gives exactly the same alpha as cel
opacity 255 followed by layer opacity 64, for every 8-bit alpha value. -/
theorem c6_opacity_multiplicative (r : Raster) (x y : Nat)
    (h : (r.px x y).2.2.2 ≤ 255) :
    ((applyOpacityStep 128 (applyOpacityStep 128 r)).px x y).2.2.2 =
      ((applyOpacityStep 64 (applyOpacityStep 255 r)).px x y).2.2.2 := by
  have harith : ∀ a, a < 256 → a * 128 / 255 * 128 / 255 = a * 64 / 255 := by
    decide
  have h128 : (128 : Nat) < 255 := by norm_num
  have h64 : (64 : Nat) < 255 := by norm_num
  have h255 : ¬(255 : Nat) < 255 := by norm_num
  simp only [applyOpacityStep, if_pos h128, if_pos h64, if_neg h255,
             mapAlpha_px]
  exact harith _ (by omega)

/-- Witness for C6 at a concrete raster with alpha 200. -/
theorem c6_opacity_witness :
    (c6Raster.px 0 0).2.2.2 ≤ 255 ∧
    ((applyOpacityStep 128 (applyOpacityStep 128 c6Raster)).px 0 0).2.2.2 =
      ((applyOpacityStep 64 (applyOpacityStep 255 c6Raster)).px 0 0).2.2.2 :=
  ⟨by decide, c6_opacity_multiplicative c6Raster 0 0 (by decide)⟩

/-- Claim C7: when no column is entirely at-or-below the alpha threshold
after a content column, and likewise for rows, the gap scan falls back to
the full image extent, so the detector returns the content bounding box of
the whole image — and some box whenever any pixel clears the threshold. -/
theorem c7_no_gap_falls_back_to_full_extent (img : PImage)
    (hmode : img.mode = "RGBA")
    (hcol : ∀ xg, xg < img.width → colEmpty img xg = true →
      ¬∃ xc, xc < xg ∧ colEmpty img xc = false)
    (hrow : ∀ yg, yg < img.height → rowEmpty img yg = true →
      ¬∃ yc, yc < yg ∧ rowEmpty img yc = false) :
    detectFirstSpriteBounds img = fullContentBounds img ∧
      ((∃ x, x < img.width ∧ ∃ y, y < img.height ∧
          ALPHA_THRESHOLD < byteAt img.alpha (y * img.width + x)) →
        (detectFirstSpriteBounds img).isSome = true) := by
  have hd : detectFirstSpriteBounds img = fullContentBounds img := by
    unfold detectFirstSpriteBounds
    rw [if_neg (by simp [hmode])]
    rw [firstGapCol_full img hcol, firstGapRow_full img hrow]
    rfl
  refine ⟨hd, ?_⟩
  rintro ⟨x, hx, y, hy, ha⟩
  rw [hd]
  unfold fullContentBounds
  exact bboxOfPoints_isSome_of_mem (contentPoints_mem.mpr ⟨hx, hy, ha⟩)

/-- Witness for C7 at the 2×2 diagonal image: no gap in either dimension,
and the detector returns the full 2×2 content box. -/
theorem c7_no_gap_witness :
    detectFirstSpriteBounds c7Diag = fullContentBounds c7Diag ∧
    detectFirstSpriteBounds c7Diag = some (0, 0, 2, 2) :=
  ⟨(c7_no_gap_falls_back_to_full_extent c7Diag rfl (by decide) (by decide)).1,
   by decide⟩

/-- Claim C8, counterexample: the detector can return `none` even though the
raster is RGBA and has a pixel above the threshold — with opaque pixels only
at (2,0) and (0,2), the detected first cell `[0,1)×[0,1)` contains no
content, so `none` is returned; "returns None exactly when no alpha channel
or no pixel exceeds the threshold" is false. -/
theorem c8_counterexample :
    detectFirstSpriteBounds c8Scattered = none ∧
    c8Scattered.mode = "RGBA" ∧
    ALPHA_THRESHOLD < byteAt c8Scattered.alpha 2 := by
  refine ⟨by decide, by decide, by decide⟩

/-- Claim C8, amended: the detector is total and returns `none` for
non-RGBA input and for rasters with no pixel above the threshold, and any
returned box has positive width and height; but `none` can also occur when
content exists yet falls outside the detected first cell. -/
theorem c8_none_and_positive_box (img : PImage) :
    (img.mode ≠ "RGBA" → detectFirstSpriteBounds img = none) ∧
    ((∀ i, i < img.alpha.length → byteAt img.alpha i ≤ ALPHA_THRESHOLD) →
      detectFirstSpriteBounds img = none) ∧
    (∀ b, detectFirstSpriteBounds img = some b → 0 < b.2.2.1 ∧ 0 < b.2.2.2) := by
  refine ⟨?_, ?_, ?_⟩
  · intro h
    unfold detectFirstSpriteBounds
    rw [if_pos h]
  · intro h
    have hall : ∀ i, byteAt img.alpha i ≤ ALPHA_THRESHOLD := by
      intro i
      by_cases hi : i < img.alpha.length
      · exact h i hi
      · unfold byteAt
        rw [List.getD_eq_default _ _ (by omega)]
        exact Nat.zero_le _
    have hempty :
        contentPoints img (firstGapCol img) (firstGapRow img) = [] := by
      cases hcp : contentPoints img (firstGapCol img) (firstGapRow img) with
      | nil => rfl
      | cons p rest =>
          exfalso
          have hm : p ∈ contentPoints img (firstGapCol img) (firstGapRow img) := by
            rw [hcp]
            exact List.mem_cons_self _ _
          obtain ⟨_, _, hgt⟩ := contentPoints_mem.mp hm
          have := hall (p.2 * img.width + p.1)
          omega
    unfold detectFirstSpriteBounds
    by_cases hm : img.mode ≠ "RGBA"
    · rw [if_pos hm]
    · rw [if_neg hm, hempty]
      rfl
  · intro b hb
    unfold detectFirstSpriteBounds at hb
    by_cases hm : img.mode ≠ "RGBA"
    · rw [if_pos hm] at hb
      cases hb
    · rw [if_neg hm] at hb
      exact bboxOfPoints_pos hb

/-- Witness for C8 (amended) at the all-transparent 2×2 image. -/
theorem c8_none_witness : detectFirstSpriteBounds c8Transparent = none :=
  (c8_none_and_positive_box c8Transparent).2.1 (by decide)

/-- Claim C9: a buffer shorter than the 128-byte header, or one whose magic
field does not match the expected constant, makes decode fail with the
format error and never yields a (possibly partial) Document. -/
theorem c9_bad_header_rejected (zd : List Nat → Option (List Nat))
    (data : List Nat)
    (h : data.length < 128 ∨ readU16 data 4 ≠ ASE_HEADER_MAGIC) :
    parseFile zd data = .error .valueError := by
  unfold parseFile
  by_cases hlen : data.length < 128
  · rw [if_pos hlen]
  · rw [if_neg hlen]
    rw [if_pos (h.resolve_left hlen)]

/-- Witness for C9 at the empty buffer. -/
theorem c9_bad_header_witness :
    (List.length ([] : List Nat) < 128 ∨
      readU16 [] 4 ≠ ASE_HEADER_MAGIC) ∧
    parseFile zdFail [] = .error .valueError :=
  ⟨Or.inl (by decide), c9_bad_header_rejected zdFail [] (Or.inl (by decide))⟩

/-- Claim C10: every successful parse yields a metadata record whose
`duration_ms` field is 0, whatever the file's per-frame durations — the
source hard-codes 0 with a TODO despite documenting the field as the total
duration. -/
theorem c10_duration_always_zero (zd : List Nat → Option (List Nat))
    (data : List Nat) (m : AseMeta)
    (h : parseAseprite zd data = .ok m) : m.duration_ms = 0 := by
  unfold parseAseprite at h
  cases hp : parseFile zd data with
  | error e =>
      rw [hp] at h
      cases h
  | ok ase =>
      rw [hp] at h
      cases h
      rfl

/-- Witness for C10 at a header-only file. -/
theorem c10_duration_witness :
    parseAseprite zdFail c10Bytes = .ok c10Meta ∧ c10Meta.duration_ms = 0 :=
  ⟨by decide, c10_duration_always_zero zdFail c10Bytes c10Meta (by decide)⟩

/-- Witness for C3 (amended) at the concrete corrupt compressed payload. -/
theorem c3_decompression_witness :
    (20 ≤ c3BadPayload.length ∧ readU16 c3BadPayload 7 = CEL_COMPRESSED ∧
      zdFail (c3BadPayload.drop 20) = none) ∧
    parseCelChunk zdFail c3BadPayload 32 = .error .zlibError :=
  ⟨⟨by decide, by decide, rfl⟩,
   c3_decompression_failure_aborts_decode.1 zdFail c3BadPayload 32
     (by decide) (by decide) rfl⟩

/-- Witness for C4 (amended) at the concrete zero-size chunk. -/
theorem c4_chunk_sizes_witness :
    (144 + 6 ≤ c4ZeroBytes.length ∧ readU32 c4ZeroBytes 144 = 0 ∧
      readU16 c4ZeroBytes 148 = 0x9999) ∧
    parseChunks zdFail c4ZeroBytes 144 1 c4Ase [] =
      parseChunks zdFail c4ZeroBytes 144 0 c4Ase [] :=
  ⟨⟨by decide, by decide, by decide⟩,
   c4_chunk_sizes_not_validated.1 zdFail c4ZeroBytes 144 0 c4Ase []
     (by decide) (by decide) (by decide) (by decide) (by decide) (by decide)⟩
